import Mathlib

/-!
Verification development for the sprite-sheet / animation-atlas parser of the
repository (file `src/core/useSpriteLoader.tsx`).

The embedding translates the pure logic of the parser:

* `checkIfFrameIsEmpty` — the alpha-channel scan over an RGBA byte buffer;
* `getRowsAndColumns` — grid inference from image dimensions and a frame
  count (columns/rows via `Math.round`/`Math.sqrt`, empty-cell detection);
* `parseFrames` — grouping of manifest frames into named animation buckets by
  case-insensitive substring match, or flattening when no names are given;
* `calculateScaleRatio` — per-group scale-ratio normalization;
* the manifest-building loop of `parseSpriteData` (grid walk emitting frames).

JavaScript numbers are modelled as follows: image pixel sizes and frame counts
are naturals; frame rectangle coordinates are rationals (every concrete value
occurring in the claims is rational); values produced by `Math.sqrt` live in
`ℝ` via `Real.sqrt`, and `Math.round` is the Mathlib `round` (both equal
`⌊x + 1/2⌋`).  Pixel-region sampling (`ctx.getImageData(x, y, w, h).data`) is
the external raster collaborator of the parser and is modelled as a function
from the requested rectangle to the RGBA byte list.
-/

/-- The size record `{w, h}` (`Size` in the source). -/
structure FrameSize where
  w : ℚ
  h : ℚ
deriving DecidableEq, Repr

/-- The pixel-rectangle record `{x, y, w, h}` (`frame` / `spriteSourceSize`
fields of `FrameData` in the source). -/
structure FrameRect where
  x : ℚ
  y : ℚ
  w : ℚ
  h : ℚ
deriving DecidableEq, Repr

/-- The per-frame manifest record (`FrameData` in the source).  The TypeScript
type does not declare `filename`, but `parseFrames` reads `value["filename"]`
on array-form manifests and checks that it is of type string,
so the field is modelled as an `Option String` (absent = not a string). -/
structure FrameData where
  frame : FrameRect
  rotated : Bool
  trimmed : Bool
  spriteSourceSize : FrameRect
  sourceSize : FrameSize
  filename : Option String
deriving DecidableEq, Repr

/-- The loop of `checkIfFrameIsEmpty`, `for (let i = 3; i < frameData.length; i += 4)`:
returns `false` at the first visited byte that is nonzero, `true` otherwise. -/
def checkFrom (frameData : List ℕ) (i : ℕ) : Bool :=
  if h : i < frameData.length then
    if frameData.get ⟨i, h⟩ ≠ 0 then false
    else checkFrom frameData (i + 4)
  else true
termination_by frameData.length - i
decreasing_by omega

/-- Source function `checkIfFrameIsEmpty`: scan the alpha bytes (indices 3, 7, 11, …)
of an RGBA buffer; the frame is empty iff all of them are `0`. -/
def checkIfFrameIsEmpty (frameData : List ℕ) : Bool :=
  checkFrom frameData 3

/-- The decoded raster image borrowed from the texture loader
(`texture.image`): pixel width and height plus the region-sampling primitive
`ctx.getImageData(x, y, w, h).data`, modelled as a function from the
requested rectangle to the RGBA byte list. -/
structure SpriteImage where
  width : ℕ
  height : ℕ
  sample : ℚ → ℚ → ℚ → ℚ → List ℕ

/-- The result record of `getRowsAndColumns`
(`{rows, columns, frameWidth, frameHeight, emptyFrames}`).  `rows` and
`columns` come out of `Math.round`, hence are integers; the frame sizes are
the exact (unrounded) quotients. -/
structure SpriteGrid where
  rows : ℤ
  columns : ℤ
  frameWidth : ℚ
  frameHeight : ℚ
  emptyFrames : List (ℕ × ℕ)
deriving DecidableEq, Repr

/-- The double loop of `getRowsAndColumns` collecting `emptyFrames`:
row-major over the grid; a cell is pushed when its row-major index reaches
`totalFrames` (padding), otherwise when its sampled pixel region is fully
transparent. -/
def emptyFramesOf (cols rows : ℤ) (totalFrames : ℕ) (frameWidth frameHeight : ℚ)
    (sample : ℚ → ℚ → ℚ → ℚ → List ℕ) : List (ℕ × ℕ) :=
  (List.range rows.toNat).flatMap fun (row : ℕ) =>
    (List.range cols.toNat).filterMap fun (col : ℕ) =>
      if (totalFrames : ℤ) ≤ (row : ℤ) * cols + (col : ℤ) then some (row, col)
      else if checkIfFrameIsEmpty
          (sample ((col : ℚ) * frameWidth) ((row : ℚ) * frameHeight) frameWidth frameHeight) then
        some (row, col)
      else none

/-- The body of `getRowsAndColumns` after `cols` and `rows` have been fixed:
`frameWidth = width / cols`, `frameHeight = height / rows` (exact division,
no rounding) and the empty-cell scan. -/
def gridCore (cols rows : ℤ) (width height : ℕ) (totalFrames : ℕ)
    (sample : ℚ → ℚ → ℚ → ℚ → List ℕ) : SpriteGrid :=
  { rows := rows
    columns := cols
    frameWidth := (width : ℚ) / (cols : ℚ)
    frameHeight := (height : ℚ) / (rows : ℚ)
    emptyFrames :=
      emptyFramesOf cols rows totalFrames
        ((width : ℚ) / (cols : ℚ)) ((height : ℚ) / (rows : ℚ)) sample }

/-- Source function `getRowsAndColumns(texture, totalFrames)`.  The flag `ctxOk` models whether
`canvas.getContext("2d", …)` succeeds; the source throws
`Failed to get 2d context` when it does not — but only after the
`texture.image` check, so a missing image always yields the all-zero grid.
`cols = Math.round(Math.sqrt(totalFrames * (width / height)))` and
`rows = Math.round(totalFrames / cols)`.  (In the corner case `cols = 0`
the division in the source yields `Infinity` where the Lean convention gives `0`;
no claim touches that corner — on the inputs of the claims, `cols > 0`.) -/
noncomputable def getRowsAndColumns (ctxOk : Bool) (image : Option SpriteImage)
    (totalFrames : ℕ) : Except String SpriteGrid :=
  match image with
  | some img =>
    if ctxOk then
      let cols : ℤ := round (Real.sqrt ((totalFrames : ℝ) * ((img.width : ℝ) / (img.height : ℝ))))
      let rows : ℤ := round ((totalFrames : ℝ) / (cols : ℝ))
      .ok (gridCore cols rows img.width img.height totalFrames img.sample)
    else .error "Failed to get 2d context"
  | none => .ok { rows := 0, columns := 0, frameWidth := 0, frameHeight := 0, emptyFrames := [] }

/-- The accumulator of the largest-frame search in `calculateScaleRatio`
(`largestFrame = { w, h, area }`). -/
structure LargestFrame where
  w : ℚ
  h : ℚ
  area : ℚ
deriving DecidableEq, Repr

/-- The loop `for (const frame of frameArray)` of `processFrameArray`:
replace the accumulator whenever the accumulator is absent or the current
area is strictly larger. -/
def findLargestGo {α : Type} (fr : α → FrameRect) : Option LargestFrame → List α → Option LargestFrame
  | acc, [] => acc
  | acc, f :: rest =>
    let area := (fr f).w * (fr f).h
    let acc2 : Option LargestFrame :=
      match acc with
      | none => some ⟨(fr f).w, (fr f).h, area⟩
      | some l => if area > l.area then some ⟨(fr f).w, (fr f).h, area⟩ else some l
    findLargestGo fr acc2 rest

/-- Largest-frame search of `processFrameArray`, started from `null`. -/
def findLargest {α : Type} (fr : α → FrameRect) (frameArray : List α) : Option LargestFrame :=
  findLargestGo fr none frameArray

/-- The scale ratio assigned to one frame:
`largestFrame ? (area === largestFrame.area ? 1 : Math.sqrt(area / largestFrame.area)) : 1`. -/
noncomputable def frameScaleRatio {α : Type} (fr : α → FrameRect)
    (largestFrame : Option LargestFrame) (frame : α) : ℝ :=
  match largestFrame with
  | some l =>
    if (fr frame).w * (fr frame).h = l.area then 1
    else Real.sqrt ((((fr frame).w * (fr frame).h : ℚ) : ℝ) / ((l.area : ℚ) : ℝ))
  | none => 1

/-- Source helper `processFrameArray` (inside `calculateScaleRatio`):
find the largest frame, then map each frame to a copy extended with its
`scaleRatio`.  The spread `{ ...frame, scaleRatio }` is modelled as the pair
of the untouched input record and the added ratio.  It is generic in the
record shape (the source is duck-typed over anything with a `.frame`
rectangle); `fr` extracts that rectangle. -/
noncomputable def processFrameArray {α : Type} (fr : α → FrameRect)
    (frameArray : List α) : List (α × ℝ) :=
  let largestFrame := findLargest fr frameArray
  frameArray.map fun frame => (frame, frameScaleRatio fr largestFrame frame)

/-- Source function `calculateScaleRatio(frames)`: an array input is processed as one
sequence; a record (hash) input has each animation sequence processed
separately, key by key. -/
noncomputable def calculateScaleRatio :
    List FrameData ⊕ List (String × List FrameData) →
      List (FrameData × ℝ) ⊕ List (String × List (FrameData × ℝ))
  | .inl frames => .inl (processFrameArray FrameData.frame frames)
  | .inr frames => .inr (frames.map fun kv => (kv.1, processFrameArray FrameData.frame kv.2))

/-- Substring search `hay.indexOf(needle) !== -1`: does `needle` occur as a contiguous
subsequence of `hay`?  Mirrors the `String.prototype.indexOf` search at each
successive start position. -/
def containsSub (needle : List Char) : List Char → Bool
  | [] => needle.isPrefixOf []
  | c :: rest => needle.isPrefixOf (c :: rest) || containsSub needle rest

/-- Case-insensitive match `key.toLowerCase().indexOf(delim.toLowerCase()) !== -1`:
case-insensitive substring containment of `delim` in `key`
(`toLowerCase` modelled character-wise; it coincides with the JavaScript
behaviour on the ASCII identifiers the claims are about). -/
def matchesCI (key : String) (delim : String) : Bool :=
  containsSub (delim.data.map Char.toLower) (key.data.map Char.toLower)

/-- The record pushed into an animation bucket by `parseFrames`:
`{ x, y, w, h, frame: frameData, sourceSize: { w, h } }`. -/
structure PushedFrame where
  x : ℚ
  y : ℚ
  w : ℚ
  h : ℚ
  frame : FrameRect
  sourceSize : FrameSize
deriving DecidableEq, Repr

/-- Builds the pushed record from a manifest frame value. -/
def pushOf (value : FrameData) : PushedFrame :=
  { x := value.frame.x
    y := value.frame.y
    w := value.frame.w
    h := value.frame.h
    frame := value.frame
    sourceSize := { w := value.sourceSize.w, h := value.sourceSize.h } }

/-- The `frames` member of a raw atlas manifest.  Array form is a list of frame
records; hash form maps keys to frame records.  (The TypeScript annotation
says `Record<string, FrameData[]>`, but the grouping code reads
`value["frame"]`, `value["sourceSize"]["w"]`, … on each hash value — i.e. it
treats each value as a single frame record, the JSON-hash layout; the
embedding follows the code.  The `.flat()` of the flatten branch is the identity
on such values.) -/
inductive SpriteFrames where
  | arr (frames : List FrameData)
  | hash (frames : List (String × FrameData))

/-- The bucket built for one animation name in the array-form branch of
`parseFrames`: scan the manifest in order, push every frame whose `filename`
is a string containing the name case-insensitively. -/
def bucketItemsArr (delim : String) (frames : List FrameData) : List PushedFrame :=
  frames.filterMap fun value =>
    match value.filename with
    | some fname => if matchesCI fname delim then some (pushOf value) else none
    | none => none

/-- The bucket built for one animation name in the hash-form branch of
`parseFrames`: scan the keys in order, push every value whose key contains
the name case-insensitively. -/
def bucketItemsHash (delim : String) (frames : List (String × FrameData)) : List PushedFrame :=
  frames.filterMap fun kv => if matchesCI kv.1 delim then some (pushOf kv.2) else none

/-- One animation bucket after `parseFrames` finishes.  `items` is the array
`sprites[name]`; `frameProp` models the subsequent
`sprites[name].frame = calculateScaleRatio(sprites[name])` assignment (a
`frame` property set on the array object, holding the scale-ratio-annotated
copies). -/
structure AnimBucket where
  items : List PushedFrame
  frameProp : List (PushedFrame × ℝ)

/-- Bucket for a name: the pushed items plus the `.frame` property holding
`calculateScaleRatio` of them. -/
noncomputable def mkBucket (items : List PushedFrame) : AnimBucket :=
  { items := items, frameProp := processFrameArray PushedFrame.frame items }

/-- The flatten branch of `parseFrames` (taken when `animationNames` is
null/undefined): an array manifest is used directly
(`spritesArr = [...data.frames]`); a hash manifest is flattened with
`Object.values(data.frames).flat()`, i.e. the values in key-iteration
order. -/
def flattenFrames : SpriteFrames → List FrameData
  | .arr frames => frames
  | .hash frames => frames.map Prod.snd

/-- Result of `parseFrames`: a record of named buckets (when animation names
were supplied — including a supplied-but-empty list, which is truthy in
JavaScript and yields a record with no keys), or the flat scale-ratio-annotated
sequence (when `animationNames` is null/undefined). -/
inductive ParsedFrames where
  | record (sprites : List (String × AnimBucket))
  | flat (frames : List (FrameData × ℝ))

/-- The bucket record of a `ParsedFrames.record`, `[]` on the flat form. -/
def ParsedFrames.buckets : ParsedFrames → List (String × AnimBucket)
  | .record sprites => sprites
  | .flat _ => []

/-- Source function `parseFrames()` on a present manifest.  Here `animationNames = none`
models a null/undefined `animationNames` (the only falsy case of
`delimiters && …`); any present list — even the empty one — takes the
grouping branches. -/
noncomputable def parseFrames (animationNames : Option (List String))
    (data : SpriteFrames) : ParsedFrames :=
  match animationNames, data with
  | some delimiters, .arr frames =>
    .record (delimiters.map fun d => (d, mkBucket (bucketItemsArr d frames)))
  | some delimiters, .hash frames =>
    .record (delimiters.map fun d => (d, mkBucket (bucketItemsHash d frames)))
  | none, data => .flat (processFrameArray FrameData.frame (flattenFrames data))

/-- The frame record emitted by the grid walk of `parseSpriteData` for cell
`(row, col)`:
`frame = { x: col * frameWidth, y: row * frameHeight, w: frameWidth, h: frameHeight }`,
zero-offset `spriteSourceSize` and `sourceSize = { frameWidth, frameHeight }`. -/
def gridCellFrame (g : SpriteGrid) (row col : ℕ) : FrameData :=
  { frame :=
      { x := (col : ℚ) * g.frameWidth
        y := (row : ℚ) * g.frameHeight
        w := g.frameWidth
        h := g.frameHeight }
    rotated := false
    trimmed := false
    spriteSourceSize := { x := 0, y := 0, w := g.frameWidth, h := g.frameHeight }
    sourceSize := { w := g.frameWidth, h := g.frameHeight }
    filename := none }

/-- The manifest-building loop of `parseSpriteData` (sprite-only case): walk
rows then columns, skip cells listed in `emptyFrames`, push a frame record
per remaining cell. -/
def buildFramesFromGrid (g : SpriteGrid) : List FrameData :=
  (List.range g.rows.toNat).flatMap fun (row : ℕ) =>
    (List.range g.columns.toNat).filterMap fun (col : ℕ) =>
      if g.emptyFrames.any fun coord => coord.1 == row && coord.2 == col then none
      else some (gridCellFrame g row col)

/-! ## Characterization lemmas for the embedded operations -/

/-- The alpha scan starting at index `i` succeeds iff every byte at an index
`≥ i` congruent to `i` mod 4 is zero. -/
theorem checkFrom_eq_true_iff (data : List ℕ) (i : ℕ) :
    checkFrom data i = true ↔
      ∀ j, i ≤ j → (j - i) % 4 = 0 → j < data.length → data.getD j 0 = 0 := by
  rw [checkFrom]
  split
  · rename_i h
    have hget : data.getD i 0 = data.get ⟨i, h⟩ := by
      rw [List.getD_eq_getElem?_getD, List.getElem?_eq_getElem h]
      simp [List.get_eq_getElem]
    split
    · rename_i hnz
      refine iff_of_false (by simp) fun hall => hnz ?_
      rw [← hget]
      exact hall i (le_refl i) (by omega) h
    · rename_i hz
      rw [checkFrom_eq_true_iff data (i + 4)]
      constructor
      · intro ih j hij hmod hlen
        rcases eq_or_lt_of_le hij with rfl | hlt
        · rw [hget]; simpa using hz
        · exact ih j (by omega) (by omega) hlen
      · intro hall j hij hmod hlen
        exact hall j (by omega) (by omega) hlen
  · rename_i h
    simp only [true_iff]
    intro j hij _ hlen
    omega
termination_by data.length - i

/-- Scan success: `checkIfFrameIsEmpty` succeeds iff all bytes at indices `3, 7, 11, …`
are zero. -/
theorem checkIfFrameIsEmpty_eq_true_iff (data : List ℕ) :
    checkIfFrameIsEmpty data = true ↔
      ∀ j, j < data.length → j % 4 = 3 → data.getD j 0 = 0 := by
  rw [checkIfFrameIsEmpty, checkFrom_eq_true_iff]
  constructor
  · intro h j hlen hmod
    exact h j (by omega) (by omega) hlen
  · intro h j hij hmod hlen
    exact h j hlen (by omega)

/-- The largest-frame fold started from an accumulator returns a result whose
area bounds the accumulator and every visited frame, and which is either the
accumulator or one of the visited frames. -/
theorem findLargestGo_spec {α : Type} (fr : α → FrameRect) (l : List α) (m : LargestFrame) :
    ∃ L, findLargestGo fr (some m) l = some L ∧
      (L = m ∨ ∃ f ∈ l, L.area = (fr f).w * (fr f).h) ∧
      m.area ≤ L.area ∧ ∀ f ∈ l, (fr f).w * (fr f).h ≤ L.area := by
  induction l generalizing m with
  | nil => exact ⟨m, rfl, Or.inl rfl, le_refl _, by simp⟩
  | cons f rest ih =>
    by_cases hgt : (fr f).w * (fr f).h > m.area
    · obtain ⟨L, hL, hmem, hle, hall⟩ := ih ⟨(fr f).w, (fr f).h, (fr f).w * (fr f).h⟩
      have hle' : (fr f).w * (fr f).h ≤ L.area := hle
      refine ⟨L, ?_, ?_, by linarith, ?_⟩
      · rw [findLargestGo]
        simp only [if_pos hgt]
        exact hL
      · rcases hmem with rfl | ⟨g, hg, hga⟩
        · exact Or.inr ⟨f, List.mem_cons_self f rest, rfl⟩
        · exact Or.inr ⟨g, List.mem_cons_of_mem f hg, hga⟩
      · intro g hg
        rcases List.mem_cons.mp hg with rfl | hg'
        · exact le_trans (le_of_eq rfl) hle'
        · exact hall g hg'
    · obtain ⟨L, hL, hmem, hle, hall⟩ := ih m
      refine ⟨L, ?_, ?_, hle, ?_⟩
      · rw [findLargestGo]
        simp only [if_neg hgt]
        exact hL
      · rcases hmem with rfl | ⟨g, hg, hga⟩
        · exact Or.inl rfl
        · exact Or.inr ⟨g, List.mem_cons_of_mem f hg, hga⟩
      · intro g hg
        rcases List.mem_cons.mp hg with rfl | hg'
        · push_neg at hgt
          linarith
        · exact hall g hg'

/-- On a nonempty list, the largest-frame search returns a frame of maximal
area. -/
theorem findLargest_spec {α : Type} (fr : α → FrameRect) (frames : List α)
    (hne : frames ≠ []) :
    ∃ L, findLargest fr frames = some L ∧
      (∃ f ∈ frames, (fr f).w * (fr f).h = L.area) ∧
      ∀ f ∈ frames, (fr f).w * (fr f).h ≤ L.area := by
  match frames, hne with
  | f :: rest, _ =>
    obtain ⟨L, hL, hmem, hle, hall⟩ :=
      findLargestGo_spec fr rest ⟨(fr f).w, (fr f).h, (fr f).w * (fr f).h⟩
    refine ⟨L, ?_, ?_, ?_⟩
    · rw [findLargest, findLargestGo]
      exact hL
    · rcases hmem with rfl | ⟨g, hg, hga⟩
      · exact ⟨f, List.mem_cons_self f rest, rfl⟩
      · exact ⟨g, List.mem_cons_of_mem f hg, hga.symm⟩
    · intro g hg
      rcases List.mem_cons.mp hg with rfl | hg'
      · exact hle
      · exact hall g hg'

/-- Membership in a scale-ratio-annotated list: exactly the input frames,
each paired with its ratio relative to the found largest frame. -/
theorem mem_processFrameArray {α : Type} (fr : α → FrameRect) (frames : List α)
    (p : α × ℝ) :
    p ∈ processFrameArray fr frames ↔
      ∃ f ∈ frames, p = (f, frameScaleRatio fr (findLargest fr frames) f) := by
  simp only [processFrameArray, List.mem_map]
  constructor
  · rintro ⟨f, hf, rfl⟩
    exact ⟨f, hf, rfl⟩
  · rintro ⟨f, hf, rfl⟩
    exact ⟨f, hf, rfl⟩

/-- Membership in the empty-cell list produced by the grid scan. -/
theorem mem_emptyFramesOf (cols rows : ℤ) (n : ℕ) (fw fh : ℚ)
    (s : ℚ → ℚ → ℚ → ℚ → List ℕ) (r c : ℕ) :
    (r, c) ∈ emptyFramesOf cols rows n fw fh s ↔
      r < rows.toNat ∧ c < cols.toNat ∧
        ((n : ℤ) ≤ (r : ℤ) * cols + (c : ℤ) ∨
          checkIfFrameIsEmpty (s ((c : ℚ) * fw) ((r : ℚ) * fh) fw fh) = true) := by
  simp only [emptyFramesOf, List.mem_flatMap, List.mem_filterMap, List.mem_range]
  constructor
  · rintro ⟨row, hrow, col, hcol, hsome⟩
    by_cases h1 : (n : ℤ) ≤ (row : ℤ) * cols + (col : ℤ)
    · rw [if_pos h1] at hsome
      simp only [Option.some.injEq, Prod.mk.injEq] at hsome
      obtain ⟨rfl, rfl⟩ := hsome
      exact ⟨hrow, hcol, Or.inl h1⟩
    · rw [if_neg h1] at hsome
      by_cases h2 : checkIfFrameIsEmpty (s ((col : ℚ) * fw) ((row : ℚ) * fh) fw fh) = true
      · rw [if_pos h2] at hsome
        simp only [Option.some.injEq, Prod.mk.injEq] at hsome
        obtain ⟨rfl, rfl⟩ := hsome
        exact ⟨hrow, hcol, Or.inr h2⟩
      · rw [if_neg h2] at hsome
        cases hsome
  · rintro ⟨hr, hc, hcond⟩
    refine ⟨r, hr, c, hc, ?_⟩
    by_cases h1 : (n : ℤ) ≤ (r : ℤ) * cols + (c : ℤ)
    · rw [if_pos h1]
    · rw [if_neg h1]
      rcases hcond with h | h
      · exact absurd h h1
      · rw [if_pos h]

/-- Looking up a key in a record built by mapping a function over a list of
keys returns the value of the function at that key. -/
theorem lookup_map_pairs {β : Type} (f : String → β) (ds : List String) (d : String)
    (hd : d ∈ ds) :
    (ds.map fun k => (k, f k)).lookup d = some (f d) := by
  induction ds with
  | nil => cases hd
  | cons a tl ih =>
    rcases eq_or_ne a d with rfl | hne
    · simp [List.lookup]
    · have hd' : d ∈ tl := by
        rcases List.mem_cons.mp hd with rfl | h
        · exact absurd rfl hne
        · exact h
      have hba : (d == a) = false := beq_eq_false_iff_ne.mpr (Ne.symm hne)
      simpa [List.lookup, hba] using ih hd'

/-- The exclusion test of the grid walk
(`emptyFrames.some(coord => coord.row === row && coord.col === col)`)
is membership of the cell. -/
theorem any_coord_eq (l : List (ℕ × ℕ)) (r c : ℕ) :
    (l.any fun coord => coord.1 == r && coord.2 == c) = true ↔ (r, c) ∈ l := by
  simp only [List.any_eq_true, Bool.and_eq_true, beq_iff_eq]
  constructor
  · rintro ⟨⟨a, b⟩, hmem, h1, h2⟩
    cases h1
    cases h2
    exact hmem
  · intro h
    exact ⟨(r, c), h, rfl, rfl⟩

/-- Membership in the grid-walk output: exactly the in-bounds cells not
listed in `emptyFrames`, mapped to their frame records. -/
theorem mem_buildFramesFromGrid (g : SpriteGrid) (f : FrameData) :
    f ∈ buildFramesFromGrid g ↔
      ∃ row col, row < g.rows.toNat ∧ col < g.columns.toNat ∧
        (row, col) ∉ g.emptyFrames ∧ f = gridCellFrame g row col := by
  simp only [buildFramesFromGrid, List.mem_flatMap, List.mem_filterMap, List.mem_range]
  constructor
  · rintro ⟨row, hrow, col, hcol, hsome⟩
    by_cases hex : (g.emptyFrames.any fun coord => coord.1 == row && coord.2 == col) = true
    · rw [if_pos hex] at hsome
      cases hsome
    · rw [if_neg hex] at hsome
      simp only [Option.some.injEq] at hsome
      exact ⟨row, col, hrow, hcol, fun hmem => hex ((any_coord_eq _ _ _).mpr hmem), hsome.symm⟩
  · rintro ⟨row, col, hrow, hcol, hnot, rfl⟩
    refine ⟨row, hrow, col, hcol, ?_⟩
    rw [if_neg fun hex => hnot ((any_coord_eq _ _ _).mp hex)]

/-- Unfolds the assigned ratio once the largest frame is known. -/
theorem frameScaleRatio_eval {α : Type} (fr : α → FrameRect) (frames : List α)
    (L : LargestFrame) (hL : findLargest fr frames = some L) (f : α) :
    frameScaleRatio fr (findLargest fr frames) f =
      if (fr f).w * (fr f).h = L.area then 1
      else Real.sqrt ((((fr f).w * (fr f).h : ℚ) : ℝ) / ((L.area : ℚ) : ℝ)) := by
  rw [hL, frameScaleRatio]

/-! ## Concrete samplers and grid evaluations used by the witnesses -/

/-- A sampler whose every region decodes to an empty byte buffer (every cell
reads as fully transparent). -/
def sampleBlank : ℚ → ℚ → ℚ → ℚ → List ℕ := fun _ _ _ _ => []

/-- A sampler whose every region decodes to one opaque RGBA pixel (no cell
reads as transparent). -/
def sampleSolid : ℚ → ℚ → ℚ → ℚ → List ℕ := fun _ _ _ _ => [9, 9, 9, 9]

theorem round_sqrt_sixteen : round (Real.sqrt (16 : ℝ)) = 4 := by
  rw [show (16 : ℝ) = 4 ^ 2 by norm_num, Real.sqrt_sq (by norm_num : (0 : ℝ) ≤ 4)]
  norm_num

theorem round_sqrt_fourteen : round (Real.sqrt (14 : ℝ)) = 4 := by
  have h1 : Real.sqrt 14 < 4.5 := by
    rw [Real.sqrt_lt' (by norm_num)]
    norm_num
  have h2 : (3.5 : ℝ) ≤ Real.sqrt 14 := by
    rw [Real.le_sqrt (by norm_num) (by norm_num)]
    norm_num
  rw [round_eq, Int.floor_eq_iff]
  constructor <;> push_cast <;> linarith

theorem round_sqrt_four : round (Real.sqrt (4 : ℝ)) = 2 := by
  rw [show (4 : ℝ) = 2 ^ 2 by norm_num, Real.sqrt_sq (by norm_num : (0 : ℝ) ≤ 2)]
  norm_num

/-- Grid inference on a 512×256 image with 8 frames fixes `cols = 4`,
`rows = 2`, for any sampler. -/
theorem getRowsAndColumns_512_256_8 (s : ℚ → ℚ → ℚ → ℚ → List ℕ) :
    getRowsAndColumns true (some ⟨512, 256, s⟩) 8 = .ok (gridCore 4 2 512 256 8 s) := by
  have harg : ((8 : ℕ) : ℝ) * (((512 : ℕ) : ℝ) / ((256 : ℕ) : ℝ)) = 16 := by norm_num
  have hr : round (((8 : ℕ) : ℝ) / ((4 : ℤ) : ℝ)) = 2 := by
    rw [round_eq, Int.floor_eq_iff]
    constructor <;> push_cast <;> linarith
  simp only [getRowsAndColumns, harg, round_sqrt_sixteen, hr, if_true]

/-- Grid inference on a 512×256 image with 7 frames fixes `cols = 4`,
`rows = 2`, for any sampler. -/
theorem getRowsAndColumns_512_256_7 (s : ℚ → ℚ → ℚ → ℚ → List ℕ) :
    getRowsAndColumns true (some ⟨512, 256, s⟩) 7 = .ok (gridCore 4 2 512 256 7 s) := by
  have harg : ((7 : ℕ) : ℝ) * (((512 : ℕ) : ℝ) / ((256 : ℕ) : ℝ)) = 14 := by norm_num
  have hr : round (((7 : ℕ) : ℝ) / ((4 : ℤ) : ℝ)) = 2 := by
    rw [round_eq, Int.floor_eq_iff]
    constructor <;> push_cast <;> linarith
  simp only [getRowsAndColumns, harg, round_sqrt_fourteen, hr, if_true]

/-- Grid inference on a 256×256 image with 4 frames fixes `cols = 2`,
`rows = 2`, for any sampler. -/
theorem getRowsAndColumns_256_256_4 (s : ℚ → ℚ → ℚ → ℚ → List ℕ) :
    getRowsAndColumns true (some ⟨256, 256, s⟩) 4 = .ok (gridCore 2 2 256 256 4 s) := by
  have harg : ((4 : ℕ) : ℝ) * (((256 : ℕ) : ℝ) / ((256 : ℕ) : ℝ)) = 4 := by norm_num
  have hr : round (((4 : ℕ) : ℝ) / ((2 : ℤ) : ℝ)) = 2 := by
    rw [round_eq, Int.floor_eq_iff]
    constructor <;> push_cast <;> linarith
  simp only [getRowsAndColumns, harg, round_sqrt_four, hr, if_true]

def unitFrame : FrameData :=
  { frame := { x := 0, y := 0, w := 1, h := 1 }
    rotated := false
    trimmed := false
    spriteSourceSize := { x := 0, y := 0, w := 1, h := 1 }
    sourceSize := { w := 1, h := 1 }
    filename := none }

def quadFrame : FrameData :=
  { frame := { x := 1, y := 0, w := 2, h := 2 }
    rotated := false
    trimmed := false
    spriteSourceSize := { x := 0, y := 0, w := 2, h := 2 }
    sourceSize := { w := 2, h := 2 }
    filename := none }

def zeroFrame : FrameData :=
  { frame := { x := 0, y := 0, w := 0, h := 0 }
    rotated := false
    trimmed := false
    spriteSourceSize := { x := 0, y := 0, w := 0, h := 0 }
    sourceSize := { w := 0, h := 0 }
    filename := none }

/-- C1 (amended: the claimed bound `0 < scaleRatio` additionally needs every
frame to have positive area; a zero-area frame in a bucket with a larger
frame receives `scaleRatio = sqrt(0 / maxArea) = 0`, see the counterexample).
For every non-empty sequence of frames whose areas are all positive, there is
a maximal area `M` attained by some frame, every frame of area `M` is
assigned `scaleRatio` exactly `1`, every other frame is assigned
`sqrt(area / M)`, and every assigned ratio lies in `(0, 1]`; and on a record
input `calculateScaleRatio` normalizes each animation bucket independently. -/
theorem C1_scaleRatio_normalization :
    (∀ frames : List FrameData, frames ≠ [] →
      (∀ f ∈ frames, 0 < f.frame.w * f.frame.h) →
      ∃ M : ℚ,
        (∃ f ∈ frames, f.frame.w * f.frame.h = M) ∧
        (∀ f ∈ frames, f.frame.w * f.frame.h ≤ M) ∧
        ∀ p ∈ processFrameArray FrameData.frame frames,
          (p.1.frame.w * p.1.frame.h = M → p.2 = 1) ∧
          (p.1.frame.w * p.1.frame.h ≠ M →
            p.2 = Real.sqrt (((p.1.frame.w * p.1.frame.h : ℚ) : ℝ) / ((M : ℚ) : ℝ))) ∧
          0 < p.2 ∧ p.2 ≤ 1) ∧
    (∀ buckets : List (String × List FrameData),
      calculateScaleRatio (.inr buckets) =
        .inr (buckets.map fun kv => (kv.1, processFrameArray FrameData.frame kv.2))) := by
  constructor
  · intro frames hne hpos
    obtain ⟨L, hL, ⟨fmax, hfmax, hfeq⟩, hall⟩ := findLargest_spec FrameData.frame frames hne
    refine ⟨L.area, ⟨fmax, hfmax, hfeq⟩, hall, ?_⟩
    intro p hp
    rw [mem_processFrameArray] at hp
    obtain ⟨f, hf, rfl⟩ := hp
    simp only
    rw [frameScaleRatio_eval _ _ L hL]
    have hfpos : 0 < f.frame.w * f.frame.h := hpos f hf
    have hMpos : 0 < L.area := lt_of_lt_of_le hfpos (hall f hf)
    by_cases heq : f.frame.w * f.frame.h = L.area
    · rw [if_pos heq]
      exact ⟨fun _ => rfl, fun hne' => absurd heq hne', by norm_num, le_refl 1⟩
    · rw [if_neg heq]
      refine ⟨fun h => absurd h heq, fun _ => rfl, ?_, ?_⟩
      · rw [Real.sqrt_pos]
        apply div_pos
        · exact_mod_cast hfpos
        · exact_mod_cast hMpos
      · exact Real.sqrt_le_one.mpr
          ((div_le_one (by exact_mod_cast hMpos)).mpr (by exact_mod_cast hall f hf))
  · intro buckets
    rfl

theorem C1_scaleRatio_normalization_witness :
    ∃ M : ℚ,
      (∃ f ∈ [unitFrame, quadFrame], f.frame.w * f.frame.h = M) ∧
      (∀ f ∈ [unitFrame, quadFrame], f.frame.w * f.frame.h ≤ M) ∧
      ∀ p ∈ processFrameArray FrameData.frame [unitFrame, quadFrame],
        (p.1.frame.w * p.1.frame.h = M → p.2 = 1) ∧
        (p.1.frame.w * p.1.frame.h ≠ M →
          p.2 = Real.sqrt (((p.1.frame.w * p.1.frame.h : ℚ) : ℝ) / ((M : ℚ) : ℝ))) ∧
        0 < p.2 ∧ p.2 ≤ 1 :=
  C1_scaleRatio_normalization.1 [unitFrame, quadFrame] (by simp)
    (by
      intro f hf
      rcases List.mem_cons.mp hf with rfl | hf'
      · norm_num [unitFrame]
      · rcases List.mem_cons.mp hf' with rfl | hf''
        · norm_num [quadFrame]
        · cases hf'')

theorem C1_scaleRatio_cex :
    processFrameArray FrameData.frame [zeroFrame, unitFrame] =
      [(zeroFrame, 0), (unitFrame, 1)] ∧ ¬ (0 : ℝ) < 0 := by
  constructor
  · have hfl : findLargest FrameData.frame [zeroFrame, unitFrame] = some ⟨1, 1, 1⟩ := by
      norm_num [findLargest, findLargestGo, zeroFrame, unitFrame]
    simp only [processFrameArray, hfl, List.map_cons, List.map_nil, frameScaleRatio]
    norm_num [zeroFrame, unitFrame]
  · norm_num

def grid512x256x8 : SpriteGrid := gridCore 4 2 512 256 8 sampleBlank

def grid512x256x7 : SpriteGrid := gridCore 4 2 512 256 7 sampleBlank

def grid256x256x4 : SpriteGrid := gridCore 2 2 256 256 4 sampleBlank

/-- C2: grid inference computes `columns = round(sqrt(frameCount * (width / height)))`,
`rows = round(frameCount / columns)`, `frameWidth = width / columns` and
`frameHeight = height / rows` with no further rounding, for every decoded
image of positive width and height and every positive frame count; in
particular `width = 512, height = 256, frameCount = 8` yields
`columns = 4, rows = 2, frameWidth = 128, frameHeight = 128` (identically on
every call: the embedded function is deterministic). -/
theorem C2_grid_inference_formulas :
    (∀ (w h n : ℕ) (s : ℚ → ℚ → ℚ → ℚ → List ℕ) (g : SpriteGrid),
      0 < w → 0 < h → 0 < n →
      getRowsAndColumns true (some ⟨w, h, s⟩) n = .ok g →
      g.columns = round (Real.sqrt ((n : ℝ) * ((w : ℝ) / (h : ℝ)))) ∧
      g.rows = round ((n : ℝ) / (g.columns : ℝ)) ∧
      g.frameWidth = (w : ℚ) / (g.columns : ℚ) ∧
      g.frameHeight = (h : ℚ) / (g.rows : ℚ)) ∧
    (∀ (s : ℚ → ℚ → ℚ → ℚ → List ℕ) (g : SpriteGrid),
      getRowsAndColumns true (some ⟨512, 256, s⟩) 8 = .ok g →
      g.columns = 4 ∧ g.rows = 2 ∧ g.frameWidth = 128 ∧ g.frameHeight = 128) := by
  constructor
  · intro w h n s g hw hh hn heq
    simp only [getRowsAndColumns, if_true] at heq
    injection heq with heq
    subst heq
    exact ⟨rfl, rfl, rfl, rfl⟩
  · intro s g heq
    rw [getRowsAndColumns_512_256_8 s] at heq
    injection heq with heq
    subst heq
    refine ⟨rfl, rfl, by norm_num [gridCore], by norm_num [gridCore]⟩

theorem C2_grid_inference_formulas_witness :
    (grid512x256x8.columns =
        round (Real.sqrt (((8 : ℕ) : ℝ) * (((512 : ℕ) : ℝ) / ((256 : ℕ) : ℝ)))) ∧
      grid512x256x8.rows = round (((8 : ℕ) : ℝ) / (grid512x256x8.columns : ℝ)) ∧
      grid512x256x8.frameWidth = ((512 : ℕ) : ℚ) / (grid512x256x8.columns : ℚ) ∧
      grid512x256x8.frameHeight = ((256 : ℕ) : ℚ) / (grid512x256x8.rows : ℚ)) ∧
    (grid512x256x8.columns = 4 ∧ grid512x256x8.rows = 2 ∧
      grid512x256x8.frameWidth = 128 ∧ grid512x256x8.frameHeight = 128) :=
  ⟨C2_grid_inference_formulas.1 512 256 8 sampleBlank grid512x256x8
      (by norm_num) (by norm_num) (by norm_num) (getRowsAndColumns_512_256_8 sampleBlank),
    C2_grid_inference_formulas.2 sampleBlank grid512x256x8
      (getRowsAndColumns_512_256_8 sampleBlank)⟩

/-- C3: every grid cell whose row-major index `row * columns + col` is at
least `frameCount` is placed in `emptyFrames`; for
`width = 512, height = 256, frameCount = 7` (a `rows = 2, columns = 4` grid),
cell `(1, 3)` with index `7` is in `emptyFrames` and is the only cell of the
grid whose index reaches `7`, whatever the pixel data. -/
theorem C3_padding_cells_empty :
    (∀ (w h n : ℕ) (s : ℚ → ℚ → ℚ → ℚ → List ℕ) (g : SpriteGrid) (r c : ℕ),
      getRowsAndColumns true (some ⟨w, h, s⟩) n = .ok g →
      r < g.rows.toNat → c < g.columns.toNat →
      (n : ℤ) ≤ (r : ℤ) * g.columns + (c : ℤ) →
      (r, c) ∈ g.emptyFrames) ∧
    (∀ (s : ℚ → ℚ → ℚ → ℚ → List ℕ) (g : SpriteGrid),
      getRowsAndColumns true (some ⟨512, 256, s⟩) 7 = .ok g →
      g.rows = 2 ∧ g.columns = 4 ∧ (1, 3) ∈ g.emptyFrames ∧
      ∀ r c : ℕ, r < 2 → c < 4 →
        ((7 : ℤ) ≤ (r : ℤ) * 4 + (c : ℤ) ↔ r = 1 ∧ c = 3)) := by
  constructor
  · intro w h n s g r c heq hr hc hidx
    simp only [getRowsAndColumns, if_true] at heq
    injection heq with heq
    subst heq
    exact (mem_emptyFramesOf _ _ _ _ _ _ _ _).mpr ⟨hr, hc, Or.inl hidx⟩
  · intro s g heq
    rw [getRowsAndColumns_512_256_7 s] at heq
    injection heq with heq
    subst heq
    refine ⟨rfl, rfl, ?_, ?_⟩
    · exact (mem_emptyFramesOf _ _ _ _ _ _ _ _).mpr
        ⟨by norm_num, by norm_num, Or.inl (by norm_num)⟩
    · intro r c hr hc
      omega

theorem C3_padding_cells_empty_witness :
    ((1, 3) ∈ grid512x256x7.emptyFrames) ∧
    (grid512x256x7.rows = 2 ∧ grid512x256x7.columns = 4 ∧
      (1, 3) ∈ grid512x256x7.emptyFrames ∧
      ∀ r c : ℕ, r < 2 → c < 4 →
        ((7 : ℤ) ≤ (r : ℤ) * 4 + (c : ℤ) ↔ r = 1 ∧ c = 3)) :=
  ⟨C3_padding_cells_empty.1 512 256 7 sampleBlank grid512x256x7 1 3
      (getRowsAndColumns_512_256_7 sampleBlank) (by decide) (by decide) (by decide),
    C3_padding_cells_empty.2 sampleBlank grid512x256x7
      (getRowsAndColumns_512_256_7 sampleBlank)⟩

/-- C4: `checkIfFrameIsEmpty` returns `true` exactly when every byte at
indices `3, 7, 11, …` of the buffer is `0`; and every grid cell whose
row-major index is below `frameCount` is marked empty iff
`checkIfFrameIsEmpty` holds of its sampled pixel region. -/
theorem C4_alpha_emptiness :
    (∀ data : List ℕ, checkIfFrameIsEmpty data = true ↔
      ∀ j, j < data.length → j % 4 = 3 → data.getD j 0 = 0) ∧
    (∀ (w h n : ℕ) (s : ℚ → ℚ → ℚ → ℚ → List ℕ) (g : SpriteGrid) (r c : ℕ),
      getRowsAndColumns true (some ⟨w, h, s⟩) n = .ok g →
      r < g.rows.toNat → c < g.columns.toNat →
      (r : ℤ) * g.columns + (c : ℤ) < (n : ℤ) →
      ((r, c) ∈ g.emptyFrames ↔
        checkIfFrameIsEmpty (s ((c : ℚ) * g.frameWidth) ((r : ℚ) * g.frameHeight)
          g.frameWidth g.frameHeight) = true)) := by
  constructor
  · exact checkIfFrameIsEmpty_eq_true_iff
  · intro w h n s g r c heq hr hc hidx
    simp only [getRowsAndColumns, if_true] at heq
    injection heq with heq
    subst heq
    simp only [gridCore]
    rw [mem_emptyFramesOf]
    constructor
    · rintro ⟨-, -, h1 | h2⟩
      · exact absurd h1 (not_le.mpr hidx)
      · exact h2
    · intro hcheck
      exact ⟨hr, hc, Or.inr hcheck⟩

theorem C4_alpha_emptiness_witness :
    (0, 0) ∈ grid256x256x4.emptyFrames ↔
      checkIfFrameIsEmpty (sampleBlank (((0 : ℕ) : ℚ) * grid256x256x4.frameWidth)
        (((0 : ℕ) : ℚ) * grid256x256x4.frameHeight)
        grid256x256x4.frameWidth grid256x256x4.frameHeight) = true :=
  C4_alpha_emptiness.2 256 256 4 sampleBlank grid256x256x4 0 0
    (getRowsAndColumns_256_256_4 sampleBlank) (by decide) (by decide) (by decide)

/-- C5: on a texture without decoded pixel data, grid inference returns the
all-zero grid with no empty cells and raises no error, for every frame count
and whether or not a 2d context would have been available. -/
theorem C5_missing_image_fallback :
    ∀ (ctxOk : Bool) (n : ℕ),
      getRowsAndColumns ctxOk none n =
        .ok { rows := 0, columns := 0, frameWidth := 0, frameHeight := 0, emptyFrames := [] } :=
  fun _ _ => rfl

/-- Membership in an array-form bucket: exactly the pushed copies of the
frames whose `filename` is a string containing the name
case-insensitively. -/
theorem mem_bucketItemsArr (d : String) (frames : List FrameData) (p : PushedFrame) :
    p ∈ bucketItemsArr d frames ↔
      ∃ v ∈ frames,
        (∃ fname, v.filename = some fname ∧ matchesCI fname d = true) ∧ p = pushOf v := by
  simp only [bucketItemsArr, List.mem_filterMap]
  constructor
  · rintro ⟨v, hv, hsome⟩
    match hvf : v.filename with
    | none =>
      rw [hvf] at hsome
      cases hsome
    | some fname =>
      rw [hvf] at hsome
      dsimp only at hsome
      by_cases hm : matchesCI fname d = true
      · rw [if_pos hm] at hsome
        simp only [Option.some.injEq] at hsome
        exact ⟨v, hv, ⟨fname, hvf, hm⟩, hsome.symm⟩
      · rw [if_neg hm] at hsome
        cases hsome
  · rintro ⟨v, hv, ⟨fname, hvf, hm⟩, rfl⟩
    refine ⟨v, hv, ?_⟩
    rw [hvf]
    dsimp only
    rw [if_pos hm]

/-- Membership in a hash-form bucket: exactly the pushed values of the
entries whose key contains the name case-insensitively. -/
theorem mem_bucketItemsHash (d : String) (frames : List (String × FrameData)) (p : PushedFrame) :
    p ∈ bucketItemsHash d frames ↔
      ∃ kv ∈ frames, matchesCI kv.1 d = true ∧ p = pushOf kv.2 := by
  simp only [bucketItemsHash, List.mem_filterMap]
  constructor
  · rintro ⟨kv, hkv, hsome⟩
    by_cases hm : matchesCI kv.1 d = true
    · rw [if_pos hm] at hsome
      simp only [Option.some.injEq] at hsome
      exact ⟨kv, hkv, hm, hsome.symm⟩
    · rw [if_neg hm] at hsome
      cases hsome
  · rintro ⟨kv, hkv, hm, rfl⟩
    exact ⟨kv, hkv, by rw [if_pos hm]⟩

def runFrame1 : FrameData :=
  { frame := { x := 0, y := 0, w := 10, h := 10 }
    rotated := false
    trimmed := false
    spriteSourceSize := { x := 0, y := 0, w := 10, h := 10 }
    sourceSize := { w := 10, h := 10 }
    filename := some "run_1" }

def runningFrame2 : FrameData :=
  { frame := { x := 10, y := 0, w := 10, h := 10 }
    rotated := false
    trimmed := false
    spriteSourceSize := { x := 0, y := 0, w := 10, h := 10 }
    sourceSize := { w := 10, h := 10 }
    filename := some "running_2" }

def jumpFrame1 : FrameData :=
  { frame := { x := 20, y := 0, w := 10, h := 10 }
    rotated := false
    trimmed := false
    spriteSourceSize := { x := 0, y := 0, w := 10, h := 10 }
    sourceSize := { w := 10, h := 10 }
    filename := some "jump_1" }

theorem bucketItems_run :
    bucketItemsArr "run" [runFrame1, runningFrame2, jumpFrame1] =
      [pushOf runFrame1, pushOf runningFrame2] := by
  decide

theorem bucketItems_jump :
    bucketItemsArr "jump" [runFrame1, runningFrame2, jumpFrame1] = [pushOf jumpFrame1] := by
  decide

/-- C6: with a list of animation names, grouping returns a record with one
bucket per name (in the order given); the bucket of a name holds, in manifest
order, exactly the pushed copies of the frames whose `filename` (array form)
or manifest key (hash form) contains the name case-insensitively; a frame may
land in several buckets, an unmatched name yields an empty bucket, and no
error is ever raised (grouping is total); frames named `run_1`, `running_2`,
`jump_1` with names `[run, jump]` give bucket `run` = both `run_1` and
`running_2` and bucket `jump` = only `jump_1`. -/
theorem C6_substring_grouping :
    (∀ (ds : List String) (frames : List FrameData) (d : String), d ∈ ds →
      (parseFrames (some ds) (.arr frames)).buckets.lookup d =
        some (mkBucket (bucketItemsArr d frames)) ∧
      ∀ p : PushedFrame, p ∈ bucketItemsArr d frames ↔
        ∃ v ∈ frames,
          (∃ fname, v.filename = some fname ∧ matchesCI fname d = true) ∧ p = pushOf v) ∧
    (∀ (ds : List String) (frames : List (String × FrameData)) (d : String), d ∈ ds →
      (parseFrames (some ds) (.hash frames)).buckets.lookup d =
        some (mkBucket (bucketItemsHash d frames)) ∧
      ∀ p : PushedFrame, p ∈ bucketItemsHash d frames ↔
        ∃ kv ∈ frames, matchesCI kv.1 d = true ∧ p = pushOf kv.2) ∧
    (∀ (ds : List String) (data : SpriteFrames),
      ∃ sprites, parseFrames (some ds) data = .record sprites) ∧
    ((parseFrames (some ["run", "jump"])
        (.arr [runFrame1, runningFrame2, jumpFrame1])).buckets =
      [("run", mkBucket [pushOf runFrame1, pushOf runningFrame2]),
        ("jump", mkBucket [pushOf jumpFrame1])]) := by
  refine ⟨?_, ?_, ?_, ?_⟩
  · intro ds frames d hd
    exact ⟨lookup_map_pairs (fun k => mkBucket (bucketItemsArr k frames)) ds d hd,
      mem_bucketItemsArr d frames⟩
  · intro ds frames d hd
    exact ⟨lookup_map_pairs (fun k => mkBucket (bucketItemsHash k frames)) ds d hd,
      mem_bucketItemsHash d frames⟩
  · intro ds data
    cases data
    · exact ⟨_, rfl⟩
    · exact ⟨_, rfl⟩
  · simp only [parseFrames, ParsedFrames.buckets, List.map_cons, List.map_nil]
    rw [bucketItems_run, bucketItems_jump]

theorem C6_substring_grouping_witness :
    ((parseFrames (some ["run", "jump"])
        (.arr [runFrame1, runningFrame2, jumpFrame1])).buckets.lookup "run" =
      some (mkBucket (bucketItemsArr "run" [runFrame1, runningFrame2, jumpFrame1]))) ∧
    ((parseFrames (some ["run"]) (.hash [("run_1", unitFrame)])).buckets.lookup "run" =
      some (mkBucket (bucketItemsHash "run" [("run_1", unitFrame)]))) :=
  ⟨(C6_substring_grouping.1 ["run", "jump"] [runFrame1, runningFrame2, jumpFrame1] "run"
      (by simp)).1,
    (C6_substring_grouping.2.1 ["run"] [("run_1", unitFrame)] "run" (by simp)).1⟩

/-- C7 (amended: the claim also asserted the flattening for a present-but-
empty name list, but an empty array is truthy in JavaScript, so
`parseFrames` then takes the grouping branch and returns a record with no
buckets — see the counterexample).  When the animation-name list is absent
(null/undefined), grouping is skipped and the result is the single flat
sequence of all frames — an array manifest as is, a hash manifest flattened
in key-iteration order — each frame carrying its `scaleRatio`; when the list
is present but empty, the result is instead the empty record. -/
theorem C7_flatten_when_no_names :
    (∀ data : SpriteFrames,
      parseFrames none data = .flat (processFrameArray FrameData.frame (flattenFrames data))) ∧
    (∀ frames : List FrameData, flattenFrames (.arr frames) = frames) ∧
    (∀ frames : List (String × FrameData),
      flattenFrames (.hash frames) = frames.map Prod.snd) ∧
    (∀ data : SpriteFrames, parseFrames (some []) data = .record []) := by
  refine ⟨?_, fun _ => rfl, fun _ => rfl, ?_⟩
  · intro data
    cases data <;> rfl
  · intro data
    cases data <;> rfl

theorem C7_empty_names_cex :
    parseFrames (some []) (.arr [runFrame1]) = .record [] ∧
    parseFrames (some []) (.arr [runFrame1]) ≠
      .flat (processFrameArray FrameData.frame [runFrame1]) := by
  refine ⟨rfl, fun h => ?_⟩
  rw [show parseFrames (some []) (.arr [runFrame1]) = .record [] from rfl] at h
  exact ParsedFrames.noConfusion h

def negWideFrame : FrameData :=
  { frame := { x := 0, y := 0, w := -4, h := 1 }
    rotated := false
    trimmed := false
    spriteSourceSize := { x := 0, y := 0, w := -4, h := 1 }
    sourceSize := { w := -4, h := 1 }
    filename := none }

def negThinFrame : FrameData :=
  { frame := { x := 0, y := 0, w := -1, h := 1 }
    rotated := false
    trimmed := false
    spriteSourceSize := { x := 0, y := 0, w := -1, h := 1 }
    sourceSize := { w := -1, h := 1 }
    filename := none }

/-- C8 (amended: the claimed strict monotonicity additionally needs the
frame areas to be nonnegative; with negative areas the assigned ratio can
grow as the area shrinks, see the counterexample).  For frames in the same
normalized bucket with nonnegative areas, strictly smaller area implies
strictly smaller assigned `scaleRatio`. -/
theorem C8_scaleRatio_monotone (frames : List FrameData)
    (hnn : ∀ f ∈ frames, 0 ≤ f.frame.w * f.frame.h)
    (p q : FrameData × ℝ)
    (hp : p ∈ processFrameArray FrameData.frame frames)
    (hq : q ∈ processFrameArray FrameData.frame frames)
    (hlt : p.1.frame.w * p.1.frame.h < q.1.frame.w * q.1.frame.h) :
    p.2 < q.2 := by
  have hne : frames ≠ [] := by
    rintro rfl
    simp [processFrameArray] at hp
  obtain ⟨L, hL, -, hall⟩ := findLargest_spec FrameData.frame frames hne
  rw [mem_processFrameArray] at hp hq
  obtain ⟨f, hf, rfl⟩ := hp
  obtain ⟨g, hg, rfl⟩ := hq
  dsimp only at hlt ⊢
  rw [frameScaleRatio_eval _ _ L hL]
  rw [frameScaleRatio_eval _ _ L hL]
  have ha : f.frame.w * f.frame.h ≤ L.area := hall f hf
  have hb : g.frame.w * g.frame.h ≤ L.area := hall g hg
  have ha0 : 0 ≤ f.frame.w * f.frame.h := hnn f hf
  have hM : 0 < L.area := lt_of_le_of_lt ha0 (lt_of_lt_of_le hlt hb)
  have hMr : (0 : ℝ) < ((L.area : ℚ) : ℝ) := by exact_mod_cast hM
  have hane : f.frame.w * f.frame.h ≠ L.area := by
    intro hcontra
    rw [hcontra] at hlt
    linarith
  rw [if_neg hane]
  have hdiv_nonneg : (0 : ℝ) ≤ (((f.frame.w * f.frame.h : ℚ)) : ℝ) / ((L.area : ℚ) : ℝ) :=
    div_nonneg (by exact_mod_cast ha0) (le_of_lt hMr)
  by_cases hbe : g.frame.w * g.frame.h = L.area
  · rw [if_pos hbe]
    have hlt1 : (((f.frame.w * f.frame.h : ℚ)) : ℝ) / ((L.area : ℚ) : ℝ) < 1 := by
      rw [div_lt_one hMr]
      exact_mod_cast lt_of_lt_of_le hlt hb
    calc Real.sqrt ((((f.frame.w * f.frame.h : ℚ)) : ℝ) / ((L.area : ℚ) : ℝ))
        < Real.sqrt 1 := Real.sqrt_lt_sqrt hdiv_nonneg hlt1
      _ = 1 := Real.sqrt_one
  · rw [if_neg hbe]
    apply Real.sqrt_lt_sqrt hdiv_nonneg
    have hlt' : (((f.frame.w * f.frame.h : ℚ)) : ℝ) < ((g.frame.w * g.frame.h : ℚ) : ℝ) := by
      exact_mod_cast hlt
    exact (div_lt_div_iff_of_pos_right hMr).mpr hlt'

theorem C8_scaleRatio_monotone_witness :
    ((unitFrame, frameScaleRatio FrameData.frame
        (findLargest FrameData.frame [unitFrame, quadFrame]) unitFrame) : FrameData × ℝ).2 <
      ((quadFrame, frameScaleRatio FrameData.frame
        (findLargest FrameData.frame [unitFrame, quadFrame]) quadFrame) : FrameData × ℝ).2 :=
  C8_scaleRatio_monotone [unitFrame, quadFrame]
    (by intro f hf; fin_cases hf <;> norm_num [unitFrame, quadFrame])
    _ _
    ((mem_processFrameArray _ _ _).mpr ⟨unitFrame, by simp, rfl⟩)
    ((mem_processFrameArray _ _ _).mpr ⟨quadFrame, by simp, rfl⟩)
    (by norm_num [unitFrame, quadFrame])

theorem C8_scaleRatio_cex :
    processFrameArray FrameData.frame [negWideFrame, negThinFrame] =
      [(negWideFrame, 2), (negThinFrame, 1)] ∧
    negWideFrame.frame.w * negWideFrame.frame.h <
      negThinFrame.frame.w * negThinFrame.frame.h ∧
    ¬ ((2 : ℝ) < 1) := by
  refine ⟨?_, by norm_num [negWideFrame, negThinFrame], by norm_num⟩
  have hfl : findLargest FrameData.frame [negWideFrame, negThinFrame] = some ⟨-1, 1, -1⟩ := by
    norm_num [findLargest, findLargestGo, negWideFrame, negThinFrame]
  simp only [processFrameArray, hfl, List.map_cons, List.map_nil, frameScaleRatio]
  norm_num [negWideFrame, negThinFrame]
  rw [show (4 : ℝ) = 2 ^ 2 by norm_num, Real.sqrt_sq (by norm_num : (0 : ℝ) ≤ 2)]

def exampleGrid : SpriteGrid :=
  { rows := 2, columns := 2, frameWidth := 3, frameHeight := 5, emptyFrames := [(0, 1)] }

/-- C9: building a manifest from an inferred grid walks the cells row-major
(rows outer, columns inner), skips exactly the cells listed in
`emptyFrames`, and emits for cell `(row, col)` a frame with
`frame = {x: col * frameWidth, y: row * frameHeight, w: frameWidth, h: frameHeight}`
and `sourceSize = {frameWidth, frameHeight}`; on a concrete 2×2 grid with
cell `(0, 1)` empty the emitted list is `[cell (0,0), cell (1,0), cell (1,1)]`
in that order. -/
theorem C9_grid_walk_emission :
    (∀ (g : SpriteGrid) (f : FrameData),
      f ∈ buildFramesFromGrid g ↔
        ∃ row col, row < g.rows.toNat ∧ col < g.columns.toNat ∧
          (row, col) ∉ g.emptyFrames ∧ f = gridCellFrame g row col) ∧
    (∀ (g : SpriteGrid) (row col : ℕ),
      (gridCellFrame g row col).frame =
        { x := (col : ℚ) * g.frameWidth, y := (row : ℚ) * g.frameHeight,
          w := g.frameWidth, h := g.frameHeight } ∧
      (gridCellFrame g row col).sourceSize = { w := g.frameWidth, h := g.frameHeight }) ∧
    (buildFramesFromGrid exampleGrid =
      [gridCellFrame exampleGrid 0 0, gridCellFrame exampleGrid 1 0,
        gridCellFrame exampleGrid 1 1]) := by
  refine ⟨mem_buildFramesFromGrid, fun g row col => ⟨rfl, rfl⟩, ?_⟩
  have h2 : Int.toNat 2 = 2 := rfl
  norm_num [buildFramesFromGrid, exampleGrid, List.range_succ, gridCellFrame, h2,
    List.filterMap_cons, List.filterMap_nil]

/-- C10: `calculateScaleRatio` on a frame sequence (empty included) returns
a sequence of the same length and order in which each output pairs the
corresponding input frame, unchanged in every field (`frame` and
`sourceSize` included), with the added `scaleRatio`; the embedding is pure,
so inputs are never mutated. -/
theorem C10_scaleRatio_preserves_frames :
    (∀ frames : List FrameData,
      calculateScaleRatio (.inl frames) = .inl (processFrameArray FrameData.frame frames)) ∧
    (∀ frames : List FrameData,
      (processFrameArray FrameData.frame frames).map Prod.fst = frames) ∧
    (∀ frames : List FrameData,
      (processFrameArray FrameData.frame frames).length = frames.length) := by
  refine ⟨fun _ => rfl, ?_, ?_⟩
  · intro frames
    simp only [processFrameArray, List.map_map]
    rw [show (Prod.fst ∘ fun frame =>
        (frame, frameScaleRatio FrameData.frame (findLargest FrameData.frame frames) frame)) =
      id from rfl, List.map_id]
  · intro frames
    simp [processFrameArray]
